import Mathlib

/-!
Shallow embedding of the sitzungsverwaltung TUI client (src/src/main.rs).

The embedding covers the navigation and editing state machine: the
StatefulList cursor container, the App state, the key-event handlers, the
patch/put request construction, and the commit path (exit_edit).

Modelling conventions:
- Rust usize arithmetic that can panic (underflow of len - 1, unwrap of a
  missing selection, out-of-bounds indexing) is modelled by Option, where
  none means the process panics/terminates.
- The HTTP gateway, the OAuth token and the tui_textarea input handling are
  external collaborators; they are modelled by an Env record of oracles.
  Mutating calls (patch/put/delete) bind their response and never inspect
  it, exactly as the source binds let response = ... and ignores it; fetch
  oracles return Option, where none models a failed fetch, whose unwrap in
  the source aborts the process.
- A serde_json object is modelled as a key/value list with overwriting
  insертion; only key lookup is relevant to the verified properties.
- Uuid and NaiveDateTime are modelled by their string renderings; the
  serde_json Value stored in Top.inhalt is modelled by its string rendering.
-/

namespace Sitzungsverwaltung

/-- Models ratatui ListState: a selected index and a scroll offset.
ListState::select sets the index and resets the offset when the index is
cleared. -/
structure ListState where
  selected : Option Nat
  offset : Nat
deriving DecidableEq, Repr

def ListState.default : ListState := { selected := none, offset := 0 }

/-- Models ratatui ListState::select: selecting none resets the offset. -/
def ListState.select (s : ListState) (idx : Option Nat) : ListState :=
  { selected := idx, offset := if idx.isNone then 0 else s.offset }

/-- Models StatefulList (main.rs lines 30-35). -/
structure StatefulList (T : Type) where
  state : ListState
  items : List T
  last_selected : Option Nat
deriving DecidableEq, Repr

/-- Models Rust debug-mode usize subtraction: none is the underflow panic. -/
def checkedSub (a b : Nat) : Option Nat :=
  if b ≤ a then some (a - b) else none

/-- Models StatefulList::with_items (main.rs lines 878-887): the state is
built from ListState::default and then select(Some(0)) is called
unconditionally, for the empty list as well. -/
def StatefulList.with_items {T : Type} (items : List T) : StatefulList T :=
  { state := ListState.default.select (some 0)
    items := items
    last_selected := none }

/-- Convenience for stating theorems: the list with its selection replaced,
exactly self.state.select(i). -/
def StatefulList.selectIdx {T : Type} (l : StatefulList T) (i : Option Nat) :
    StatefulList T :=
  { l with state := l.state.select i }

/-- Models StatefulList::next (main.rs lines 889-901). The source computes
self.items.len() - 1 whenever len is not 1 and a selection exists, which
underflows (panics) on the empty list. -/
def StatefulList.next {T : Type} (l : StatefulList T) : Option (StatefulList T) :=
  match l.state.selected with
  | some i =>
    if l.items.length = 1 then
      some (l.selectIdx (some 0))
    else
      match checkedSub l.items.length 1 with
      | none => none
      | some m =>
        if m = i then some (l.selectIdx (some 0))
        else some (l.selectIdx (some (i + 1)))
  | none => some (l.selectIdx (some (l.last_selected.getD 0)))

/-- Models StatefulList::previous (main.rs lines 903-915). -/
def StatefulList.previous {T : Type} (l : StatefulList T) : Option (StatefulList T) :=
  match l.state.selected with
  | some i =>
    if i = 0 then
      match checkedSub l.items.length 1 with
      | none => none
      | some m => some (l.selectIdx (some m))
    else some (l.selectIdx (some (i - 1)))
  | none => some (l.selectIdx (some (l.last_selected.getD 0)))

/-- Models StatefulList::unselect (main.rs lines 917-922): the offset is
saved, the selection is remembered, select(None) clears selection (and, in
ratatui, the offset), and the saved offset is written back. -/
def StatefulList.unselect {T : Type} (l : StatefulList T) : StatefulList T :=
  let offset := l.state.offset
  let l1 : StatefulList T :=
    { l with last_selected := l.state.selected, state := l.state.select none }
  { l1 with state := { l1.state with offset := offset } }

/-- Iterated next, used to state the circularity property. -/
def StatefulList.nextN {T : Type} (l : StatefulList T) : Nat → Option (StatefulList T)
  | 0 => some l
  | n + 1 =>
    match l.next with
    | none => none
    | some l2 => l2.nextN n

/-- Models Sitzung (main.rs lines 44-49); datum and id by their string
renderings. -/
structure Sitzung where
  name : String
  datum : String
  id : String
deriving DecidableEq, Repr

/-- Models Top (main.rs lines 51-57); inhalt by its string rendering. -/
structure Top where
  name : String
  id : String
  inhalt : String
  weight : Int
deriving DecidableEq, Repr

/-- Models Antrag (main.rs lines 59-65); umlaut field name ASCII-ized. -/
structure Antrag where
  id : String
  titel : String
  begruendung : String
  antragstext : String
deriving DecidableEq, Repr

/-- Models Param (main.rs lines 67-71). -/
structure Param where
  titel : String
  text : String
deriving DecidableEq, Repr

/-- Models SelectedLayout (main.rs lines 37-42); Anträge ASCII-ized. -/
inductive SelectedLayout where
  | Sitzungen
  | Tops
  | Antraege
deriving DecidableEq, Repr

/-- A mutating HTTP request as the source assembles it: method, url, the
Cookie header value and the JSON object body as a key/value list. -/
structure Request where
  method : String
  url : String
  cookie : String
  body : List (String × String)
deriving DecidableEq, Repr

/-- Models assignment data[k] = v on a serde_json object: overwrite the
existing entry for k, or add one. -/
def jsonInsert : List (String × String) → String → String → List (String × String)
  | [], k, v => [(k, v)]
  | (k2, v2) :: rest, k, v =>
    if k2 = k then (k2, v) :: rest else (k2, v2) :: jsonInsert rest k v

/-- Key lookup in a JSON object body. -/
def jsonLookup : List (String × String) → String → Option String
  | [], _ => none
  | (k2, v) :: rest, k => if k2 = k then some v else jsonLookup rest k

/-- Models Rust String::to_lowercase as a per-character lowering; the two
agree on every field label the client uses (ASCII letters plus already
lower-case umlauts). -/
def lowercase (s : String) : String := String.mk (s.data.map Char.toLower)

/-- Models the shared loop of patch/put: for each Param the lower-cased
label is assigned the Param text (main.rs lines 380-383 and analogues). -/
def buildData (init : List (String × String)) (params : List Param) :
    List (String × String) :=
  params.foldl (fun d p => jsonInsert d (lowercase p.titel) p.text) init

def URL : String := "https://new.hhu-fscs.de/"

/-- Key events as the handlers distinguish them (press events only; the
source ignores non-press events in every handler). -/
inductive KeyInput where
  | Char (c : Char)
  | Esc
  | Left
  | Down
  | Up
  | Other
deriving DecidableEq, Repr

/-- The external collaborators: fetch oracles (none models a failed
request, whose unwrap aborts the process), the response to mutating
requests (bound and ignored by the source), and the tui_textarea input
function. -/
structure Env where
  fetch_sitzungen : Option (List Sitzung)
  fetch_tops : String → Option (List Top)
  fetch_antraege : String → Option (List Antrag)
  fetch_one_sitzung : String → Option Sitzung
  fetch_one_top : String → Option Top
  fetch_one_antrag : String → Option Antrag
  mutation_response : Request → Bool
  textarea_input : List String → KeyInput → List String

/-- Models App (main.rs lines 97-111); the TextArea is modelled by its
lines. -/
structure App where
  sitzungen : StatefulList Sitzung
  tops_selected_sitzung : StatefulList Top
  antraege_selected_top : StatefulList Antrag
  layout : SelectedLayout
  currently_editing : Option SelectedLayout
  edit_buffer : StatefulList Param
  currently_creating : Option SelectedLayout
  edit_param_pop : Option Param
  current_text_area : List String
  sitzung : Sitzung
  top : Top
  token : String
  antrag : Antrag
deriving DecidableEq, Repr

/-- Models App::new (main.rs lines 155-171) given the startup fetch result
and the token; TextArea::default() holds one empty line. -/
def App.new (sitzungen : List Sitzung) (token : String) : App :=
  { sitzungen := StatefulList.with_items sitzungen
    tops_selected_sitzung := StatefulList.with_items []
    antraege_selected_top := StatefulList.with_items []
    layout := SelectedLayout.Sitzungen
    currently_editing := none
    edit_buffer := StatefulList.with_items []
    currently_creating := none
    edit_param_pop := none
    current_text_area := [""]
    sitzung := { name := "", datum := "", id := "" }
    top := { name := "", id := "", inhalt := "", weight := 0 }
    token := token
    antrag := { id := "", titel := "", begruendung := "", antragstext := "" } }

/-- Models App::open_sitzung (main.rs lines 181-192): unwrap the selection,
index the list, fetch the Tops, then set the focused Sitzung, replace the
Tops list and switch the layout. -/
def App.open_sitzung (a : App) (env : Env) : Option App :=
  match a.sitzungen.state.selected with
  | none => none
  | some sel =>
    match a.sitzungen.items[sel]? with
    | none => none
    | some sitzung =>
      match env.fetch_tops sitzung.id with
      | none => none
      | some tops =>
        some { a with
          sitzung := sitzung
          tops_selected_sitzung := StatefulList.with_items tops
          layout := SelectedLayout.Tops }

/-- Models App::create_sitzung (main.rs lines 194-204): push the two empty
Params onto the edit buffer and enter creating mode. -/
def App.create_sitzung (a : App) : App :=
  { a with
    edit_buffer := { a.edit_buffer with
      items := a.edit_buffer.items ++ [⟨"Datum", ""⟩, ⟨"Name", ""⟩] }
    currently_creating := some SelectedLayout.Sitzungen }

/-- Models App::delete_sitzung (main.rs lines 206-221): delete by id, then
re-fetch the Sitzungen list (self.get_sitzungen()). -/
def App.delete_sitzung (a : App) (env : Env) : Option App :=
  match a.sitzungen.state.selected with
  | none => none
  | some sel =>
    match a.sitzungen.items[sel]? with
    | none => none
    | some sitzung =>
      let req : Request :=
        { method := "DELETE", url := URL ++ "api/topmanager/sitzung/"
          cookie := "access_token=" ++ a.token
          body := jsonInsert [] "id" sitzung.id }
      let _response := env.mutation_response req
      match env.fetch_sitzungen with
      | none => none
      | some fresh => some { a with sitzungen := StatefulList.with_items fresh }

/-- Models App::open_top (main.rs lines 223-234). -/
def App.open_top (a : App) (env : Env) : Option App :=
  match a.tops_selected_sitzung.state.selected with
  | none => none
  | some sel =>
    match a.tops_selected_sitzung.items[sel]? with
    | none => none
    | some top =>
      match env.fetch_antraege top.id with
      | none => none
      | some antraege =>
        some { a with
          top := top
          antraege_selected_top := StatefulList.with_items antraege
          layout := SelectedLayout.Antraege }

/-- Models App::create_top (main.rs lines 236-246). -/
def App.create_top (a : App) : App :=
  { a with
    edit_buffer := { a.edit_buffer with
      items := a.edit_buffer.items ++ [⟨"Titel", ""⟩, ⟨"Inhalt", ""⟩] }
    currently_creating := some SelectedLayout.Tops }

/-- Models App::delete_top (main.rs lines 248-263): delete by id, then
re-fetch the Tops of the focused Sitzung. -/
def App.delete_top (a : App) (env : Env) : Option App :=
  match a.tops_selected_sitzung.state.selected with
  | none => none
  | some sel =>
    match a.tops_selected_sitzung.items[sel]? with
    | none => none
    | some top =>
      let req : Request :=
        { method := "DELETE", url := URL ++ "api/topmanager/top/"
          cookie := "access_token=" ++ a.token
          body := jsonInsert [] "id" top.id }
      let _response := env.mutation_response req
      match env.fetch_tops a.sitzung.id with
      | none => none
      | some fresh =>
        some { a with tops_selected_sitzung := StatefulList.with_items fresh }

/-- Models App::edit_antag (main.rs lines 265-287): fetch the authoritative
Antrag, store it, push the three pre-populated Params and enter editing
mode. -/
def App.edit_antag (a : App) (env : Env) : Option App :=
  match a.antraege_selected_top.state.selected with
  | none => none
  | some sel =>
    match a.antraege_selected_top.items[sel]? with
    | none => none
    | some antrag0 =>
      match env.fetch_one_antrag antrag0.id with
      | none => none
      | some antrag =>
        some { a with
          antrag := antrag
          edit_buffer := { a.edit_buffer with
            items := a.edit_buffer.items ++
              [⟨"Titel", antrag.titel⟩, ⟨"Begründung", antrag.begruendung⟩,
               ⟨"Antragstext", antrag.antragstext⟩] }
          currently_editing := some SelectedLayout.Antraege }

/-- Models App::edit_sitzung (main.rs lines 289-305). -/
def App.edit_sitzung (a : App) (env : Env) : Option App :=
  match a.sitzungen.state.selected with
  | none => none
  | some sel =>
    match a.sitzungen.items[sel]? with
    | none => none
    | some sitzung0 =>
      match env.fetch_one_sitzung sitzung0.id with
      | none => none
      | some sitzung =>
        some { a with
          edit_buffer := { a.edit_buffer with
            items := a.edit_buffer.items ++
              [⟨"Datum", sitzung.datum⟩, ⟨"Name", sitzung.name⟩] }
          currently_editing := some SelectedLayout.Sitzungen }

/-- Models App::edit_top (main.rs lines 307-323). -/
def App.edit_top (a : App) (env : Env) : Option App :=
  match a.tops_selected_sitzung.state.selected with
  | none => none
  | some sel =>
    match a.tops_selected_sitzung.items[sel]? with
    | none => none
    | some top0 =>
      match env.fetch_one_top top0.id with
      | none => none
      | some top =>
        some { a with
          edit_buffer := { a.edit_buffer with
            items := a.edit_buffer.items ++
              [⟨"Titel", top.name⟩, ⟨"Inhalt", top.inhalt⟩] }
          currently_editing := some SelectedLayout.Tops }

/-- Models App::create_antrag (main.rs lines 325-343). -/
def App.create_antrag (a : App) : App :=
  { a with
    edit_buffer := { a.edit_buffer with
      items := a.edit_buffer.items ++
        [⟨"Titel", ""⟩, ⟨"Begründung", ""⟩, ⟨"Antragstext", ""⟩,
         ⟨"Antragssteller", ""⟩] }
    currently_creating := some SelectedLayout.Antraege }

/-- Models App::delete_antrag (main.rs lines 345-354): delete by id in the
url (no body), then re-fetch the Anträge of the focused Top. -/
def App.delete_antrag (a : App) (env : Env) : Option App :=
  match a.antraege_selected_top.state.selected with
  | none => none
  | some sel =>
    match a.antraege_selected_top.items[sel]? with
    | none => none
    | some antrag =>
      let req : Request :=
        { method := "DELETE"
          url := URL ++ "api/topmanager/antrag/" ++ antrag.id ++ "/"
          cookie := "access_token=" ++ a.token
          body := [] }
      let _response := env.mutation_response req
      match env.fetch_antraege a.top.id with
      | none => none
      | some fresh =>
        some { a with antraege_selected_top := StatefulList.with_items fresh }

/-- Models the lines of TextArea::default() after insert_str(text)
(tui_textarea splits the inserted string at newlines). -/
def textAreaFromString (text : String) : List String :=
  text.splitOn "\n"

/-- Models App::edit_value (main.rs lines 356-364): unwrap the edit-buffer
selection, open the popup on that Param and seed the text area with its
text. -/
def App.edit_value (a : App) : Option App :=
  match a.edit_buffer.state.selected with
  | none => none
  | some sel =>
    match a.edit_buffer.items[sel]? with
    | none => none
    | some param =>
      some { a with
        edit_param_pop := some param
        current_text_area := textAreaFromString param.text }

/-- Models App::patch (main.rs lines 370-426): one PATCH request per active
editing mode. The Tops branch unwraps the Tops selection (none models the
panic). With no editing mode active no request is issued. -/
def App.patch (a : App) : Option (List Request) :=
  let cookie := "access_token=" ++ a.token
  match a.currently_editing with
  | some SelectedLayout.Sitzungen =>
    some [{ method := "PATCH", url := URL ++ "api/topmanager/sitzung/"
            cookie := cookie
            body := buildData (jsonInsert [] "id" a.sitzung.id) a.edit_buffer.items }]
  | some SelectedLayout.Tops =>
    match a.tops_selected_sitzung.state.selected with
    | none => none
    | some sel =>
      match a.tops_selected_sitzung.items[sel]? with
      | none => none
      | some top =>
        some [{ method := "PATCH", url := URL ++ "api/topmanager/top/"
                cookie := cookie
                body := buildData
                  (jsonInsert (jsonInsert [] "id" top.id) "sitzung_id" a.sitzung.id)
                  a.edit_buffer.items }]
  | some SelectedLayout.Antraege =>
    some [{ method := "PATCH", url := URL ++ "api/topmanager/antrag/"
            cookie := cookie
            body := buildData (jsonInsert [] "id" a.antrag.id) a.edit_buffer.items }]
  | none => some []

/-- Models App::put (main.rs lines 428-476): one PUT request per active
creating mode; with no creating mode active no request is issued. -/
def App.put (a : App) : List Request :=
  let cookie := "access_token=" ++ a.token
  match a.currently_creating with
  | some SelectedLayout.Sitzungen =>
    [{ method := "PUT", url := URL ++ "api/topmanager/sitzung/"
       cookie := cookie, body := buildData [] a.edit_buffer.items }]
  | some SelectedLayout.Tops =>
    [{ method := "PUT"
       url := URL ++ "api/topmanager/sitzung/" ++ a.sitzung.id ++ "/top/"
       cookie := cookie, body := buildData [] a.edit_buffer.items }]
  | some SelectedLayout.Antraege =>
    [{ method := "PUT"
       url := URL ++ "api/topmanager/top/" ++ a.top.id ++ "/antrag/"
       cookie := cookie, body := buildData [] a.edit_buffer.items }]
  | none => []

/-- Models the tail of App::exit_edit after the patch branch (main.rs lines
631-638): run put when a creating mode is active and clear it, then perform
the three unconditional re-fetches and reset the edit buffer. The returned
list is the trace of mutating requests issued. -/
def App.exit_edit_tail (a1 : App) (env : Env) (trace : List Request) :
    Option App × List Request :=
  let a2trace :=
    match a1.currently_creating with
    | some _ =>
      let reqs := a1.put
      let _responses := reqs.map env.mutation_response
      ({ a1 with currently_creating := none }, trace ++ reqs)
    | none => (a1, trace)
  let a2 := a2trace.1
  let trace2 := a2trace.2
  match env.fetch_sitzungen with
  | none => (none, trace2)
  | some s =>
    match env.fetch_tops a2.sitzung.id with
    | none => (none, trace2)
    | some t =>
      match env.fetch_antraege a2.top.id with
      | none => (none, trace2)
      | some an =>
        (some { a2 with
          sitzungen := StatefulList.with_items s
          tops_selected_sitzung := StatefulList.with_items t
          antraege_selected_top := StatefulList.with_items an
          edit_buffer := StatefulList.with_items [] }, trace2)

/-- Models App::exit_edit (main.rs lines 626-639): when an editing mode is
active, patch is issued (its response bound and ignored) and the mode is
cleared; then the creating branch, the re-fetches and the buffer reset. -/
def App.exit_edit (a : App) (env : Env) : Option App × List Request :=
  match a.currently_editing with
  | some _ =>
    match a.patch with
    | none => (none, [])
    | some reqs =>
      let _responses := reqs.map env.mutation_response
      App.exit_edit_tail { a with currently_editing := none } env reqs
  | none => App.exit_edit_tail a env []

/-- Models App::update (main.rs lines 478-481): the text-area lines are
concatenated with no separator and written into the selected Param. -/
def App.update (a : App) : Option App :=
  let value := String.join a.current_text_area
  match a.edit_buffer.state.selected with
  | none => none
  | some j =>
    match a.edit_buffer.items[j]? with
    | none => none
    | some q =>
      some { a with
        edit_buffer := { a.edit_buffer with
          items := a.edit_buffer.items.set j { q with text := value } } }

/-- Models App::switch_layout (main.rs lines 622-624). -/
def App.switch_layout (a : App) (layout : SelectedLayout) : App :=
  { a with layout := layout }

/-- Models App::handle_edit (main.rs lines 529-544). -/
def App.handle_edit (a : App) (env : Env) (k : KeyInput) : Option App :=
  if k = KeyInput.Char 'q' ∨ k = KeyInput.Esc then (a.exit_edit env).1
  else if k = KeyInput.Char 'h' ∨ k = KeyInput.Left then
    some { a with edit_buffer := a.edit_buffer.unselect }
  else if k = KeyInput.Char 'j' ∨ k = KeyInput.Down then
    (a.edit_buffer.next).map fun l => { a with edit_buffer := l }
  else if k = KeyInput.Char 'k' ∨ k = KeyInput.Up then
    (a.edit_buffer.previous).map fun l => { a with edit_buffer := l }
  else if k = KeyInput.Char 'e' then a.edit_value
  else some a

/-- Models App::handle_text_area (main.rs lines 546-561): Esc commits the
text area via update and closes the popup; every other key is forwarded to
the text area. -/
def App.handle_text_area (a : App) (env : Env) (k : KeyInput) : Option App :=
  if k = KeyInput.Esc then
    (a.update).map fun a2 => { a2 with edit_param_pop := none }
  else some { a with current_text_area := env.textarea_input a.current_text_area k }

/-- Models App::handle_sitzungen (main.rs lines 563-581); q/Esc is
std::process::exit(0), modelled as none. -/
def App.handle_sitzungen (a : App) (env : Env) (k : KeyInput) : Option App :=
  if k = KeyInput.Char 'q' ∨ k = KeyInput.Esc then none
  else if k = KeyInput.Char 'h' ∨ k = KeyInput.Left then
    some { a with sitzungen := a.sitzungen.unselect }
  else if k = KeyInput.Char 'j' ∨ k = KeyInput.Down then
    (a.sitzungen.next).map fun l => { a with sitzungen := l }
  else if k = KeyInput.Char 'k' ∨ k = KeyInput.Up then
    (a.sitzungen.previous).map fun l => { a with sitzungen := l }
  else if k = KeyInput.Char 'o' then a.open_sitzung env
  else if k = KeyInput.Char 'e' then a.edit_sitzung env
  else if k = KeyInput.Char 'p' then some a.create_sitzung
  else if k = KeyInput.Char 'd' then a.delete_sitzung env
  else some a

/-- Models App::handle_tops (main.rs lines 583-601). -/
def App.handle_tops (a : App) (env : Env) (k : KeyInput) : Option App :=
  if k = KeyInput.Char 'q' ∨ k = KeyInput.Esc then
    some (a.switch_layout SelectedLayout.Sitzungen)
  else if k = KeyInput.Char 'h' ∨ k = KeyInput.Left then
    some { a with tops_selected_sitzung := a.tops_selected_sitzung.unselect }
  else if k = KeyInput.Char 'j' ∨ k = KeyInput.Down then
    (a.tops_selected_sitzung.next).map fun l => { a with tops_selected_sitzung := l }
  else if k = KeyInput.Char 'k' ∨ k = KeyInput.Up then
    (a.tops_selected_sitzung.previous).map fun l => { a with tops_selected_sitzung := l }
  else if k = KeyInput.Char 'o' then a.open_top env
  else if k = KeyInput.Char 'e' then a.edit_top env
  else if k = KeyInput.Char 'p' then some a.create_top
  else if k = KeyInput.Char 'd' then a.delete_top env
  else some a

/-- Models App::handle_anträge (main.rs lines 603-620). -/
def App.handle_antraege (a : App) (env : Env) (k : KeyInput) : Option App :=
  if k = KeyInput.Char 'q' ∨ k = KeyInput.Esc then
    some (a.switch_layout SelectedLayout.Tops)
  else if k = KeyInput.Char 'h' ∨ k = KeyInput.Left then
    some { a with antraege_selected_top := a.antraege_selected_top.unselect }
  else if k = KeyInput.Char 'j' ∨ k = KeyInput.Down then
    (a.antraege_selected_top.next).map fun l => { a with antraege_selected_top := l }
  else if k = KeyInput.Char 'k' ∨ k = KeyInput.Up then
    (a.antraege_selected_top.previous).map fun l => { a with antraege_selected_top := l }
  else if k = KeyInput.Char 'e' then a.edit_antag env
  else if k = KeyInput.Char 'p' then some a.create_antrag
  else if k = KeyInput.Char 'd' then a.delete_antrag env
  else some a

/-- Models one iteration of App::run (main.rs lines 485-522): dispatch on
the popup, then the editing mode, then the creating mode (the source
matches the three layout variants separately but calls handle_edit in every
branch), then the browsing layout. none models process termination. -/
def App.step (a : App) (env : Env) (k : KeyInput) : Option App :=
  if a.edit_param_pop.isSome then a.handle_text_area env k
  else if a.currently_editing.isSome then a.handle_edit env k
  else if a.currently_creating.isSome then a.handle_edit env k
  else
    match a.layout with
    | SelectedLayout.Sitzungen => a.handle_sitzungen env k
    | SelectedLayout.Tops => a.handle_tops env k
    | SelectedLayout.Antraege => a.handle_antraege env k

/-- The states the app can be in: the initial state for some startup fetch
and token, closed under key-event steps with arbitrary environments. -/
inductive Reachable : App → Prop where
  | init (sitzungen : List Sitzung) (token : String) :
      Reachable (App.new sitzungen token)
  | step (a : App) (env : Env) (k : KeyInput) (a' : App) :
      Reachable a → App.step a env k = some a' → Reachable a'

/-! Concrete fixtures used by witnesses and counterexamples. -/

def sampleSitzung : Sitzung :=
  { name := "A", datum := "2024-01-01 10:00:00", id := "s1" }

def sampleTop : Top := { name := "X", id := "t1", inhalt := "c", weight := 0 }

def sampleList : StatefulList Nat :=
  { state := { selected := some 1, offset := 0 }
    items := [10, 20, 30]
    last_selected := none }

def baseApp : App :=
  { sitzungen := StatefulList.with_items [sampleSitzung]
    tops_selected_sitzung := StatefulList.with_items [sampleTop]
    antraege_selected_top := StatefulList.with_items []
    layout := SelectedLayout.Sitzungen
    currently_editing := none
    edit_buffer := StatefulList.with_items []
    currently_creating := none
    edit_param_pop := none
    current_text_area := [""]
    sitzung := sampleSitzung
    top := sampleTop
    token := "tok"
    antrag := { id := "a1", titel := "T", begruendung := "B", antragstext := "AT" } }

def sampleEnv : Env :=
  { fetch_sitzungen := some [sampleSitzung]
    fetch_tops := fun _ => some [sampleTop]
    fetch_antraege := fun _ => some []
    fetch_one_sitzung := fun _ => some sampleSitzung
    fetch_one_top := fun _ => some sampleTop
    fetch_one_antrag := fun _ => none
    mutation_response := fun _ => true
    textarea_input := fun ls _ => ls }

def c2App : App :=
  { baseApp with
    currently_editing := some SelectedLayout.Sitzungen
    edit_buffer := StatefulList.with_items [⟨"Datum", "d"⟩, ⟨"Name", "neu"⟩] }

def c2Result : App := ((App.exit_edit c2App sampleEnv).1).getD c2App

def c3App : App :=
  { baseApp with
    layout := SelectedLayout.Tops
    currently_editing := some SelectedLayout.Tops
    edit_buffer := StatefulList.with_items [⟨"Titel", "x"⟩, ⟨"Inhalt", "new"⟩] }

def c7App : App := { baseApp with layout := SelectedLayout.Tops }

def c8Env : Env := { sampleEnv with fetch_tops := fun _ => none }

def c10App : App :=
  { baseApp with
    edit_param_pop := some ⟨"Inhalt", "old"⟩
    edit_buffer := StatefulList.with_items [⟨"Inhalt", "old"⟩]
    current_text_area := ["ab", "cd"] }

/-! Helper lemmas about StatefulList. -/

@[simp] theorem selectIdx_items {T : Type} (l : StatefulList T) (i : Option Nat) :
    (l.selectIdx i).items = l.items := rfl

@[simp] theorem selectIdx_last {T : Type} (l : StatefulList T) (i : Option Nat) :
    (l.selectIdx i).last_selected = l.last_selected := rfl

@[simp] theorem selectIdx_selected_some {T : Type} (l : StatefulList T) (i : Nat) :
    (l.selectIdx (some i)).state.selected = some i := rfl

@[simp] theorem selectIdx_offset_some {T : Type} (l : StatefulList T) (i : Nat) :
    (l.selectIdx (some i)).state.offset = l.state.offset := rfl

theorem selectIdx_selectIdx_some {T : Type} (l : StatefulList T) (i j : Nat) :
    (l.selectIdx (some i)).selectIdx (some j) = l.selectIdx (some j) := rfl

theorem selectIdx_self {T : Type} (l : StatefulList T) (i : Nat)
    (hsel : l.state.selected = some i) : l.selectIdx (some i) = l := by
  rcases l with ⟨⟨sel, off⟩, items, last⟩
  simp only at hsel
  subst hsel
  rfl

theorem next_of_selected {T : Type} (l : StatefulList T) (i : Nat)
    (hsel : l.state.selected = some i) (hi : i < l.items.length) :
    l.next = some (l.selectIdx (some ((i + 1) % l.items.length))) := by
  have hlen : 0 < l.items.length := Nat.lt_of_le_of_lt (Nat.zero_le i) hi
  simp only [StatefulList.next, hsel]
  by_cases h1 : l.items.length = 1
  · have hi0 : i = 0 := by omega
    subst hi0
    simp [h1]
  · have hsub : checkedSub l.items.length 1 = some (l.items.length - 1) := by
      unfold checkedSub
      rw [if_pos (by omega : 1 ≤ l.items.length)]
    rw [if_neg h1, hsub]
    by_cases h2 : l.items.length - 1 = i
    · have hmod : (i + 1) % l.items.length = 0 := by
        have h3 : i + 1 = l.items.length := by omega
        simp [h3]
      simp [h2, hmod]
    · have hmod : (i + 1) % l.items.length = i + 1 := Nat.mod_eq_of_lt (by omega)
      simp [h2, hmod]

theorem previous_of_selected {T : Type} (l : StatefulList T) (i : Nat)
    (hsel : l.state.selected = some i) (hlen : 0 < l.items.length) :
    l.previous =
      some (l.selectIdx (some (if i = 0 then l.items.length - 1 else i - 1))) := by
  simp only [StatefulList.previous, hsel]
  by_cases h0 : i = 0
  · have hsub : checkedSub l.items.length 1 = some (l.items.length - 1) := by
      unfold checkedSub
      rw [if_pos (by omega : 1 ≤ l.items.length)]
    simp [h0, hsub]
  · simp [h0]

theorem nextN_of_selected {T : Type} (k : Nat) :
    ∀ (l : StatefulList T) (i : Nat), l.state.selected = some i →
      i < l.items.length →
      l.nextN k = some (l.selectIdx (some ((i + k) % l.items.length))) := by
  induction k with
  | zero =>
    intro l i hsel hi
    simp [StatefulList.nextN, Nat.mod_eq_of_lt hi, selectIdx_self l i hsel]
  | succ n ih =>
    intro l i hsel hi
    have hlen : 0 < l.items.length := Nat.lt_of_le_of_lt (Nat.zero_le i) hi
    have hnext := next_of_selected l i hsel hi
    have hstep : l.nextN (n + 1) =
        (l.selectIdx (some ((i + 1) % l.items.length))).nextN n := by
      simp [StatefulList.nextN, hnext]
    rw [hstep,
      ih (l.selectIdx (some ((i + 1) % l.items.length))) ((i + 1) % l.items.length)
        rfl (by simpa using Nat.mod_lt (i + 1) hlen)]
    have harith : ((i + 1) % l.items.length + n) % l.items.length =
        (i + (n + 1)) % l.items.length := by
      rw [Nat.mod_add_mod]
      congr 1
      omega
    simp [selectIdx_selectIdx_some, harith]

/-- C1 counterexample: with_items on the empty list does NOT set the
selection to None: it selects index 0 unconditionally, and the subsequent
next/previous calls are not no-ops but panic on the usize underflow of
items.len() - 1. -/
theorem with_items_empty_counterexample :
    (StatefulList.with_items ([] : List Sitzung)).state.selected = some 0 ∧
    (StatefulList.with_items ([] : List Sitzung)).next = none ∧
    (StatefulList.with_items ([] : List Sitzung)).previous = none :=
  ⟨rfl, rfl, rfl⟩

/-- C1 (amended): with_items sets selectedIndex = Some 0 and clears the
remembered index for every item sequence, including the empty one; on the
empty list the initial selection is Some 0 and next/previous are not
no-ops: both panic (terminate the process) on the usize underflow. -/
theorem with_items_selects_zero {T : Type} (items : List T) :
    (StatefulList.with_items items).state.selected = some 0 ∧
    (StatefulList.with_items items).last_selected = none ∧
    (StatefulList.with_items ([] : List T)).next = none ∧
    (StatefulList.with_items ([] : List T)).previous = none :=
  ⟨rfl, rfl, rfl, rfl⟩

/-- C4: on a non-empty list with a valid selection, next advances
circularly (wrapping to 0 from the last index, which covers the
one-element list), exactly len(items) next calls return to the start, and
no smaller positive count does. -/
theorem next_circularity {T : Type} (l : StatefulList T) (i : Nat)
    (hsel : l.state.selected = some i) (hi : i < l.items.length) :
    l.next = some (l.selectIdx (some (if i + 1 = l.items.length then 0 else i + 1))) ∧
    l.nextN l.items.length = some l ∧
    ∀ k, 0 < k → k < l.items.length → l.nextN k ≠ some l := by
  have hlen : 0 < l.items.length := Nat.lt_of_le_of_lt (Nat.zero_le i) hi
  refine ⟨?_, ?_, ?_⟩
  · rw [next_of_selected l i hsel hi]
    have hmod : (i + 1) % l.items.length =
        if i + 1 = l.items.length then 0 else i + 1 := by
      by_cases h : i + 1 = l.items.length
      · simp [h]
      · rw [if_neg h, Nat.mod_eq_of_lt (by omega)]
    rw [hmod]
  · rw [nextN_of_selected l.items.length l i hsel hi]
    have hmod : (i + l.items.length) % l.items.length = i := by
      rw [Nat.add_mod_right, Nat.mod_eq_of_lt hi]
    rw [hmod, selectIdx_self l i hsel]
  · intro k hk hklen heq
    rw [nextN_of_selected k l i hsel hi] at heq
    have h2 : l.selectIdx (some ((i + k) % l.items.length)) = l :=
      Option.some.inj heq
    have h3 : (i + k) % l.items.length = i := by
      have h4 := congrArg (fun s => s.state.selected) h2
      simp only [selectIdx_selected_some, hsel, Option.some.injEq] at h4
      exact h4
    rcases Nat.lt_or_ge (i + k) l.items.length with hc | hc
    · rw [Nat.mod_eq_of_lt hc] at h3
      omega
    · rw [Nat.mod_eq_sub_mod hc] at h3
      have hlt : i + k - l.items.length < l.items.length := by omega
      rw [Nat.mod_eq_of_lt hlt] at h3
      omega

/-- C4 witness at the three-element list with index 1 selected. -/
theorem next_circularity_witness :
    sampleList.state.selected = some 1 ∧ 1 < sampleList.items.length ∧
    sampleList.nextN sampleList.items.length = some sampleList :=
  ⟨rfl, by decide, (next_circularity sampleList 1 rfl (by decide)).2.1⟩

/-- C5: previous is the exact inverse of next on a non-empty list with a
valid selection, and previous wraps from index 0 to len - 1. -/
theorem previous_inverse_of_next {T : Type} (l : StatefulList T) (i : Nat)
    (hsel : l.state.selected = some i) (hi : i < l.items.length) :
    (l.next.bind StatefulList.previous) = some l ∧
    (i = 0 → l.previous = some (l.selectIdx (some (l.items.length - 1)))) := by
  have hlen : 0 < l.items.length := Nat.lt_of_le_of_lt (Nat.zero_le i) hi
  refine ⟨?_, ?_⟩
  · rw [next_of_selected l i hsel hi]
    rw [Option.some_bind]
    rw [previous_of_selected (l.selectIdx (some ((i + 1) % l.items.length)))
      ((i + 1) % l.items.length) rfl (by simpa using hlen)]
    rw [selectIdx_selectIdx_some]
    by_cases h : i + 1 = l.items.length
    · have hj : (i + 1) % l.items.length = 0 := by simp [h]
      have hi' : l.items.length - 1 = i := by omega
      rw [hj]
      simp [selectIdx_items, hi', selectIdx_self l i hsel]
    · have hj : (i + 1) % l.items.length = i + 1 := Nat.mod_eq_of_lt (by omega)
      rw [hj, if_neg (by omega : ¬ i + 1 = 0)]
      have hi' : i + 1 - 1 = i := by omega
      rw [hi', selectIdx_self l i hsel]
  · intro h0
    subst h0
    rw [previous_of_selected l 0 hsel hlen]
    simp

/-- C5 witness at the three-element list with index 1 selected. -/
theorem previous_inverse_of_next_witness :
    sampleList.state.selected = some 1 ∧ 1 < sampleList.items.length ∧
    (sampleList.next.bind StatefulList.previous) = some sampleList :=
  ⟨rfl, by decide, (previous_inverse_of_next sampleList 1 rfl (by decide)).1⟩

/-- C6: unselect stores the selected index as the remembered index, clears
the selection and preserves the scroll offset, and the following next or
previous call restores the selection to that remembered index. -/
theorem unselect_remembers {T : Type} (l : StatefulList T) (i : Nat)
    (hsel : l.state.selected = some i) :
    l.unselect.last_selected = some i ∧
    l.unselect.state.selected = none ∧
    l.unselect.state.offset = l.state.offset ∧
    l.unselect.next = some (l.unselect.selectIdx (some i)) ∧
    l.unselect.previous = some (l.unselect.selectIdx (some i)) := by
  rcases l with ⟨⟨sel, off⟩, items, last⟩
  simp only at hsel
  subst hsel
  refine ⟨rfl, rfl, rfl, ?_, ?_⟩ <;>
    simp [StatefulList.unselect, StatefulList.next, StatefulList.previous,
      ListState.select, StatefulList.selectIdx]

/-- C6 witness at the three-element list with index 1 selected. -/
theorem unselect_remembers_witness :
    sampleList.state.selected = some 1 ∧
    (sampleList.unselect.last_selected = some 1 ∧
     sampleList.unselect.state.selected = none ∧
     sampleList.unselect.state.offset = sampleList.state.offset ∧
     sampleList.unselect.next = some (sampleList.unselect.selectIdx (some 1)) ∧
     sampleList.unselect.previous = some (sampleList.unselect.selectIdx (some 1))) :=
  ⟨rfl, unselect_remembers sampleList 1 rfl⟩

/-! Helper lemmas about the JSON object model. -/

theorem jsonLookup_jsonInsert_self (d : List (String × String)) (k v : String) :
    jsonLookup (jsonInsert d k v) k = some v := by
  induction d with
  | nil => simp [jsonInsert, jsonLookup]
  | cons p rest ih =>
    rcases p with ⟨k2, v2⟩
    by_cases h : k2 = k
    · simp [jsonInsert, jsonLookup, h]
    · simp [jsonInsert, jsonLookup, h, ih]

theorem jsonLookup_jsonInsert_other (d : List (String × String)) (k v k2 : String)
    (hne : k2 ≠ k) : jsonLookup (jsonInsert d k v) k2 = jsonLookup d k2 := by
  have hne2 : k ≠ k2 := Ne.symm hne
  induction d with
  | nil => simp [jsonInsert, jsonLookup, hne2]
  | cons p rest ih =>
    rcases p with ⟨ka, va⟩
    by_cases h : ka = k
    · subst h
      simp only [jsonInsert, if_pos rfl]
      simp [jsonLookup, hne2]
    · simp only [jsonInsert, if_neg h]
      by_cases h2 : ka = k2
      · simp [jsonLookup, h2]
      · simp [jsonLookup, h2, ih]

theorem jsonLookup_buildData_notmem (params : List Param) :
    ∀ (init : List (String × String)) (k : String),
      k ∉ params.map (fun p => lowercase p.titel) →
      jsonLookup (buildData init params) k = jsonLookup init k := by
  induction params with
  | nil => intro init k _; rfl
  | cons p rest ih =>
    intro init k hk
    simp only [List.map_cons, List.mem_cons] at hk
    push_neg at hk
    rw [show buildData init (p :: rest) =
        buildData (jsonInsert init (lowercase p.titel) p.text) rest from rfl]
    rw [ih _ k hk.2, jsonLookup_jsonInsert_other _ _ _ _ hk.1]

theorem jsonLookup_buildData_mem (params : List Param) :
    ∀ (init : List (String × String)),
      (params.map (fun p => lowercase p.titel)).Nodup →
      ∀ q ∈ params, jsonLookup (buildData init params) (lowercase q.titel) = some q.text := by
  induction params with
  | nil => intro init _ q hq; cases hq
  | cons p rest ih =>
    intro init hnodup q hq
    simp only [List.map_cons, List.nodup_cons] at hnodup
    rcases List.mem_cons.mp hq with rfl | hq2
    · rw [show buildData init (q :: rest) =
          buildData (jsonInsert init (lowercase q.titel) q.text) rest from rfl]
      rw [jsonLookup_buildData_notmem rest _ _ hnodup.1, jsonLookup_jsonInsert_self]
    · rw [show buildData init (p :: rest) =
          buildData (jsonInsert init (lowercase p.titel) p.text) rest from rfl]
      exact ih _ hnodup.2 q hq2

/-! Helper lemmas about exit_edit. -/

theorem exit_edit_tail_trace (b : App) (env : Env) (tr : List Request) :
    (App.exit_edit_tail b env tr).2 = tr ++ b.put := by
  rcases hcr : b.currently_creating with _ | c
  · have hput : b.put = [] := by simp [App.put, hcr]
    simp only [App.exit_edit_tail, hcr]
    rcases env.fetch_sitzungen with _ | s
    · simp [hput]
    · rcases env.fetch_tops b.sitzung.id with _ | t
      · simp [hput]
      · rcases env.fetch_antraege b.top.id with _ | an <;> simp [hput]
  · simp only [App.exit_edit_tail, hcr]
    rcases env.fetch_sitzungen with _ | s
    · simp
    · rcases env.fetch_tops b.sitzung.id with _ | t
      · simp
      · rcases env.fetch_antraege b.top.id with _ | an <;> simp

theorem exit_edit_tail_state (b : App) (env : Env) (tr : List Request) (a' : App)
    (h : (App.exit_edit_tail b env tr).1 = some a') :
    a'.currently_editing = b.currently_editing ∧
    a'.currently_creating = none ∧
    a'.edit_buffer = StatefulList.with_items [] ∧
    a'.sitzung = b.sitzung ∧ a'.top = b.top ∧
    (∃ s, env.fetch_sitzungen = some s ∧
      a'.sitzungen = StatefulList.with_items s) ∧
    (∃ t, env.fetch_tops b.sitzung.id = some t ∧
      a'.tops_selected_sitzung = StatefulList.with_items t) ∧
    (∃ an, env.fetch_antraege b.top.id = some an ∧
      a'.antraege_selected_top = StatefulList.with_items an) := by
  rcases hcr : b.currently_creating with _ | c
  · simp only [App.exit_edit_tail, hcr] at h
    rcases hs : env.fetch_sitzungen with _ | s <;> rw [hs] at h
    · simp at h
    · rcases ht : env.fetch_tops b.sitzung.id with _ | t <;> rw [ht] at h
      · simp at h
      · rcases han : env.fetch_antraege b.top.id with _ | an <;> rw [han] at h
        · simp at h
        · simp only [Option.some.injEq] at h
          subst h
          exact ⟨rfl, rfl, rfl, rfl, rfl, ⟨s, rfl, rfl⟩, ⟨t, rfl, rfl⟩, ⟨an, rfl, rfl⟩⟩
  · simp only [App.exit_edit_tail, hcr] at h
    rcases hs : env.fetch_sitzungen with _ | s <;> rw [hs] at h
    · simp at h
    · rcases ht : env.fetch_tops b.sitzung.id with _ | t <;> rw [ht] at h
      · simp at h
      · rcases han : env.fetch_antraege b.top.id with _ | an <;> rw [han] at h
        · simp at h
        · simp only [Option.some.injEq] at h
          subst h
          exact ⟨rfl, rfl, rfl, rfl, rfl, ⟨s, rfl, rfl⟩, ⟨t, rfl, rfl⟩, ⟨an, rfl, rfl⟩⟩

theorem exit_edit_clears_modes {a a' : App} {env : Env}
    (h : (App.exit_edit a env).1 = some a') :
    a'.currently_editing = none ∧ a'.currently_creating = none := by
  rcases hce : a.currently_editing with _ | c
  · simp only [App.exit_edit, hce] at h
    have := exit_edit_tail_state a env [] a' h
    exact ⟨this.1.trans hce, this.2.1⟩
  · simp only [App.exit_edit, hce] at h
    rcases hp : a.patch with _ | reqs <;> rw [hp] at h
    · simp at h
    · have := exit_edit_tail_state { a with currently_editing := none } env reqs a' h
      exact ⟨this.1, this.2.1⟩

/-- C2: exiting Editing or Creating mode issues the patch and create calls
and then, regardless of the response to those calls (the environment's
mutation_response is never inspected), discards the edit session: the
modes are cleared, the edit buffer is reset to the empty list and the three
lists are re-fetched from the server. -/
theorem exit_edit_discards_session (a a' : App) (env : Env) (f : Request → Bool)
    (h : (App.exit_edit a env).1 = some a') :
    App.exit_edit a { env with mutation_response := f } = App.exit_edit a env ∧
    (App.exit_edit a env).2 =
      (a.patch.getD []) ++ App.put { a with currently_editing := none } ∧
    a'.currently_editing = none ∧
    a'.currently_creating = none ∧
    a'.edit_buffer = StatefulList.with_items [] ∧
    (∃ s, env.fetch_sitzungen = some s ∧
      a'.sitzungen = StatefulList.with_items s) ∧
    (∃ t, env.fetch_tops a'.sitzung.id = some t ∧
      a'.tops_selected_sitzung = StatefulList.with_items t) ∧
    (∃ an, env.fetch_antraege a'.top.id = some an ∧
      a'.antraege_selected_top = StatefulList.with_items an) := by
  refine ⟨rfl, ?_, ?_⟩
  rotate_left
  · rcases hce : a.currently_editing with _ | c
    · simp only [App.exit_edit, hce] at h
      have hs := exit_edit_tail_state a env [] a' h
      refine ⟨hs.1.trans hce, hs.2.1, hs.2.2.1, ?_, ?_, ?_⟩
      · exact hs.2.2.2.2.2.1
      · rw [hs.2.2.2.1]; exact hs.2.2.2.2.2.2.1
      · rw [hs.2.2.2.2.1]; exact hs.2.2.2.2.2.2.2
    · simp only [App.exit_edit, hce] at h
      rcases hp : a.patch with _ | reqs <;> rw [hp] at h
      · simp at h
      · have hs := exit_edit_tail_state { a with currently_editing := none } env reqs a' h
        refine ⟨hs.1, hs.2.1, hs.2.2.1, ?_, ?_, ?_⟩
        · exact hs.2.2.2.2.2.1
        · rw [hs.2.2.2.1]; exact hs.2.2.2.2.2.2.1
        · rw [hs.2.2.2.2.1]; exact hs.2.2.2.2.2.2.2
  · rcases hce : a.currently_editing with _ | c
    · simp only [App.exit_edit, hce]
      rw [exit_edit_tail_trace]
      have hput : App.put { a with currently_editing := none } = a.put := rfl
      have hpatch : a.patch = some [] := by simp [App.patch, hce]
      simp [hpatch, hput]
    · simp only [App.exit_edit, hce] at h ⊢
      rcases hp : a.patch with _ | reqs
      · rw [hp] at h
        simp at h
      · rw [hp] at h
        simp [exit_edit_tail_trace]

/-- C2 witness: a concrete App in Editing mode over a Sitzung. -/
theorem exit_edit_discards_session_witness :
    (App.exit_edit c2App sampleEnv).1 = some c2Result ∧
    (App.exit_edit c2App { sampleEnv with mutation_response := fun _ => false } =
      App.exit_edit c2App sampleEnv ∧
    (App.exit_edit c2App sampleEnv).2 =
      (c2App.patch.getD []) ++ App.put { c2App with currently_editing := none } ∧
    c2Result.currently_editing = none ∧
    c2Result.currently_creating = none ∧
    c2Result.edit_buffer = StatefulList.with_items [] ∧
    (∃ s, sampleEnv.fetch_sitzungen = some s ∧
      c2Result.sitzungen = StatefulList.with_items s) ∧
    (∃ t, sampleEnv.fetch_tops c2Result.sitzung.id = some t ∧
      c2Result.tops_selected_sitzung = StatefulList.with_items t) ∧
    (∃ an, sampleEnv.fetch_antraege c2Result.top.id = some an ∧
      c2Result.antraege_selected_top = StatefulList.with_items an)) :=
  ⟨rfl, exit_edit_discards_session c2App c2Result sampleEnv (fun _ => false) rfl⟩

/-- C3: committing an edit of a Top under the focused Sitzung issues
exactly one PATCH request; its body maps id to the edited Top's id,
sitzung_id to the focused Sitzung's id, and every edit-buffer Param's
lower-cased label to that Param's current text. -/
theorem patch_top_request_body (a : App) (env : Env) (sel : Nat) (top : Top)
    (hed : a.currently_editing = some SelectedLayout.Tops)
    (hcr : a.currently_creating = none)
    (hsel : a.tops_selected_sitzung.state.selected = some sel)
    (hitem : a.tops_selected_sitzung.items[sel]? = some top)
    (hnodup : (a.edit_buffer.items.map (fun p => lowercase p.titel)).Nodup)
    (hkeys : ∀ p ∈ a.edit_buffer.items,
      lowercase p.titel ≠ "id" ∧ lowercase p.titel ≠ "sitzung_id") :
    ∃ req : Request,
      (App.exit_edit a env).2 = [req] ∧
      req.method = "PATCH" ∧
      req.url = URL ++ "api/topmanager/top/" ∧
      jsonLookup req.body "id" = some top.id ∧
      jsonLookup req.body "sitzung_id" = some a.sitzung.id ∧
      ∀ p ∈ a.edit_buffer.items,
        jsonLookup req.body (lowercase p.titel) = some p.text := by
  have hpatch : a.patch = some
      [{ method := "PATCH", url := URL ++ "api/topmanager/top/"
         cookie := "access_token=" ++ a.token
         body := buildData
           (jsonInsert (jsonInsert [] "id" top.id) "sitzung_id" a.sitzung.id)
           a.edit_buffer.items }] := by
    simp [App.patch, hed, hsel, hitem]
  refine ⟨{ method := "PATCH", url := URL ++ "api/topmanager/top/"
            cookie := "access_token=" ++ a.token
            body := buildData
              (jsonInsert (jsonInsert [] "id" top.id) "sitzung_id" a.sitzung.id)
              a.edit_buffer.items }, ?_, rfl, rfl, ?_, ?_, ?_⟩
  · simp only [App.exit_edit, hed, hpatch]
    rw [exit_edit_tail_trace]
    have hcr2 : App.put { a with currently_editing := none } = [] := by
      simp [App.put, hcr]
    simp [hcr2]
  · have hnm : "id" ∉ a.edit_buffer.items.map (fun p => lowercase p.titel) := by
      intro hmem
      rcases List.mem_map.mp hmem with ⟨p, hp, hpe⟩
      exact (hkeys p hp).1 hpe
    rw [jsonLookup_buildData_notmem _ _ _ hnm,
      jsonLookup_jsonInsert_other _ _ _ _ (by decide),
      jsonLookup_jsonInsert_self]
  · have hnm : "sitzung_id" ∉ a.edit_buffer.items.map (fun p => lowercase p.titel) := by
      intro hmem
      rcases List.mem_map.mp hmem with ⟨p, hp, hpe⟩
      exact (hkeys p hp).2 hpe
    rw [jsonLookup_buildData_notmem _ _ _ hnm, jsonLookup_jsonInsert_self]
  · exact jsonLookup_buildData_mem _ _ hnodup

/-- C3 witness: a concrete App editing the sample Top with a Titel and an
Inhalt Param. -/
theorem patch_top_request_body_witness :
    c3App.currently_editing = some SelectedLayout.Tops ∧
    c3App.tops_selected_sitzung.state.selected = some 0 ∧
    c3App.tops_selected_sitzung.items[0]? = some sampleTop ∧
    (∃ req : Request,
      (App.exit_edit c3App sampleEnv).2 = [req] ∧
      req.method = "PATCH" ∧
      req.url = URL ++ "api/topmanager/top/" ∧
      jsonLookup req.body "id" = some sampleTop.id ∧
      jsonLookup req.body "sitzung_id" = some c3App.sitzung.id ∧
      ∀ p ∈ c3App.edit_buffer.items,
        jsonLookup req.body (lowercase p.titel) = some p.text) :=
  ⟨rfl, rfl, rfl,
    patch_top_request_body c3App sampleEnv 0 sampleTop rfl rfl rfl rfl
      (by decide) (by decide)⟩

/-! Helper lemmas about string concatenation. -/

theorem string_join_data (ls : List String) :
    (String.join ls).data = (ls.map String.data).flatten := by
  have h : ∀ (acc : String), (ls.foldl (fun r s => r ++ s) acc).data
      = acc.data ++ (ls.map String.data).flatten := by
    induction ls with
    | nil => intro acc; simp
    | cons s rest ih =>
      intro acc
      simp only [List.foldl_cons, List.map_cons, List.flatten_cons]
      rw [ih (acc ++ s), String.data_append, List.append_assoc]
  exact (h (String.mk [])).trans (by simp)

theorem join_no_newline (ls : List String)
    (h : ∀ s ∈ ls, Char.ofNat 10 ∉ s.data) :
    Char.ofNat 10 ∉ (String.join ls).data := by
  rw [string_join_data]
  intro hmem
  rcases List.mem_flatten.mp hmem with ⟨d, hd, hcd⟩
  rcases List.mem_map.mp hd with ⟨s, hs, rfl⟩
  exact h s hs hcd

/-- C10: committing the field editor (Esc in FieldEditing) writes the
concatenation of the text-area lines, with no separator, into the selected
Param; in particular, when no line contains a newline the committed text
contains no newline either. -/
theorem field_editor_commit_concat (a : App) (env : Env) (p q : Param) (j : Nat)
    (hpop : a.edit_param_pop = some p)
    (hsel : a.edit_buffer.state.selected = some j)
    (hitem : a.edit_buffer.items[j]? = some q) :
    ∃ a2, App.step a env KeyInput.Esc = some a2 ∧
      a2.edit_param_pop = none ∧
      a2.edit_buffer.items[j]? =
        some { q with text := String.join a.current_text_area } ∧
      ((∀ s ∈ a.current_text_area, Char.ofNat 10 ∉ s.data) →
        Char.ofNat 10 ∉ (String.join a.current_text_area).data) := by
  have hlt : j < a.edit_buffer.items.length := (List.getElem?_eq_some.mp hitem).1
  have hupd : a.update = some { a with
      edit_buffer := { a.edit_buffer with
        items := a.edit_buffer.items.set j
          { q with text := String.join a.current_text_area } } } := by
    simp [App.update, hsel, hitem]
  refine ⟨{ a with
      edit_buffer := { a.edit_buffer with
        items := a.edit_buffer.items.set j
          { q with text := String.join a.current_text_area } }
      edit_param_pop := none }, ?_, rfl, ?_, ?_⟩
  · simp [App.step, hpop, App.handle_text_area, hupd]
  · exact List.getElem?_set_eq_of_lt _ hlt
  · exact fun hns => join_no_newline _ hns

/-- C10 witness: a concrete FieldEditing state whose text area holds the
two lines ab and cd. -/
theorem field_editor_commit_concat_witness :
    c10App.edit_param_pop = some ⟨"Inhalt", "old"⟩ ∧
    c10App.edit_buffer.state.selected = some 0 ∧
    c10App.edit_buffer.items[0]? = some ⟨"Inhalt", "old"⟩ ∧
    (∃ a2, App.step c10App sampleEnv KeyInput.Esc = some a2 ∧
      a2.edit_param_pop = none ∧
      a2.edit_buffer.items[0]? =
        some { (⟨"Inhalt", "old"⟩ : Param) with
          text := String.join c10App.current_text_area } ∧
      ((∀ s ∈ c10App.current_text_area, Char.ofNat 10 ∉ s.data) →
        Char.ofNat 10 ∉ (String.join c10App.current_text_area).data)) :=
  ⟨rfl, rfl, rfl,
    field_editor_commit_concat c10App sampleEnv ⟨"Inhalt", "old"⟩
      ⟨"Inhalt", "old"⟩ 0 rfl rfl rfl⟩

theorem open_sitzung_inv {a b : App} {env : Env}
    (h : a.open_sitzung env = some b) :
    b.sitzungen = a.sitzungen ∧ b.layout = SelectedLayout.Tops ∧
    b.edit_param_pop = a.edit_param_pop ∧
    b.currently_editing = a.currently_editing ∧
    b.currently_creating = a.currently_creating := by
  unfold App.open_sitzung at h
  repeat' split at h
  all_goals simp_all
  all_goals (subst h; simp)

theorem step_tops_goback {a : App} {env : Env} {k : KeyInput}
    (hpop : a.edit_param_pop = none) (hed : a.currently_editing = none)
    (hcr : a.currently_creating = none) (hl : a.layout = SelectedLayout.Tops)
    (hk2 : k = KeyInput.Char 'q' ∨ k = KeyInput.Esc) :
    App.step a env k = some { a with layout := SelectedLayout.Sitzungen } := by
  simp only [App.step, hpop, hed, hcr, hl, Option.isSome_none, Bool.false_eq_true,
    if_false]
  simp only [App.handle_tops, if_pos hk2]
  simp [App.switch_layout, hed, hcr, hpop]

theorem step_antraege_goback {a : App} {env : Env} {k : KeyInput}
    (hpop : a.edit_param_pop = none) (hed : a.currently_editing = none)
    (hcr : a.currently_creating = none) (hl : a.layout = SelectedLayout.Antraege)
    (hk2 : k = KeyInput.Char 'q' ∨ k = KeyInput.Esc) :
    App.step a env k = some { a with layout := SelectedLayout.Tops } := by
  simp only [App.step, hpop, hed, hcr, hl, Option.isSome_none, Bool.false_eq_true,
    if_false]
  simp only [App.handle_antraege, if_pos hk2]
  simp [App.switch_layout, hed, hcr, hpop]

/-- C7: going back one level with Esc or q only changes the displayed
layout: no fetch is performed and every list, including its selection, is
left untouched; after a drill-down from the Sessions level, going back
restores the Sessions list exactly as it was before the drill-down and
keeps the fetched child list in memory. -/
theorem go_back_no_fetch (a : App) (env env2 : Env) (k : KeyInput)
    (hpop : a.edit_param_pop = none)
    (hed : a.currently_editing = none)
    (hcr : a.currently_creating = none)
    (hk : k = KeyInput.Esc ∨ k = KeyInput.Char 'q') :
    (a.layout = SelectedLayout.Tops →
      App.step a env k = some { a with layout := SelectedLayout.Sitzungen }) ∧
    (a.layout = SelectedLayout.Antraege →
      App.step a env k = some { a with layout := SelectedLayout.Tops }) ∧
    (a.layout = SelectedLayout.Sitzungen →
      ∀ b, App.step a env (KeyInput.Char 'o') = some b →
        b.sitzungen = a.sitzungen ∧ b.layout = SelectedLayout.Tops ∧
        App.step b env2 k = some { b with layout := SelectedLayout.Sitzungen }) := by
  have hk2 : k = KeyInput.Char 'q' ∨ k = KeyInput.Esc := hk.symm
  refine ⟨fun hl => step_tops_goback hpop hed hcr hl hk2,
    fun hl => step_antraege_goback hpop hed hcr hl hk2, ?_⟩
  intro hl b hb
  simp only [App.step, hpop, hed, hcr, hl, Option.isSome_none, Bool.false_eq_true,
    if_false] at hb
  simp only [App.handle_sitzungen] at hb
  simp at hb
  obtain ⟨h1, h2, h3, h4, h5⟩ := open_sitzung_inv hb
  exact ⟨h1, h2,
    step_tops_goback (h3.trans hpop) (h4.trans hed) (h5.trans hcr) h2 hk2⟩

/-- C7 witness: a concrete App browsing the Tops level. -/
theorem go_back_no_fetch_witness :
    c7App.edit_param_pop = none ∧ c7App.layout = SelectedLayout.Tops ∧
    App.step c7App sampleEnv KeyInput.Esc =
      some { c7App with layout := SelectedLayout.Sitzungen } :=
  ⟨rfl, rfl,
    (go_back_no_fetch c7App sampleEnv sampleEnv KeyInput.Esc rfl rfl rfl
      (Or.inl rfl)).1 rfl⟩

/-- C8 counterexample: with a failing child-list fetch, pressing o on the
Sessions level does not leave the client interactive at the previous
level: the step relation yields no successor state at all (the unwrap
panics and the process terminates), in particular not the unchanged
previous state. -/
theorem drilldown_failure_counterexample :
    App.step baseApp c8Env (KeyInput.Char 'o') = none ∧
    ¬ App.step baseApp c8Env (KeyInput.Char 'o') = some baseApp := by
  constructor
  · decide
  · decide

/-- C8 (amended): when the child-list fetch of a drill-down fails, the
level transition does not occur because the client panics and terminates
(the step relation has no successor state); it does not remain interactive
at the previous level. -/
theorem drilldown_failure_terminates (a : App) (env : Env) (sel : Nat)
    (hpop : a.edit_param_pop = none)
    (hed : a.currently_editing = none)
    (hcr : a.currently_creating = none) :
    (∀ s : Sitzung, a.layout = SelectedLayout.Sitzungen →
      a.sitzungen.state.selected = some sel →
      a.sitzungen.items[sel]? = some s →
      env.fetch_tops s.id = none →
      App.step a env (KeyInput.Char 'o') = none) ∧
    (∀ t : Top, a.layout = SelectedLayout.Tops →
      a.tops_selected_sitzung.state.selected = some sel →
      a.tops_selected_sitzung.items[sel]? = some t →
      env.fetch_antraege t.id = none →
      App.step a env (KeyInput.Char 'o') = none) := by
  constructor
  · intro s hl hsel hitem hf
    simp only [App.step, hpop, hed, hcr, hl, Option.isSome_none, Bool.false_eq_true,
      if_false]
    simp only [App.handle_sitzungen]
    simp [App.open_sitzung, hsel, hitem, hf]
  · intro t hl hsel hitem hf
    simp only [App.step, hpop, hed, hcr, hl, Option.isSome_none, Bool.false_eq_true,
      if_false]
    simp only [App.handle_tops]
    simp [App.open_top, hsel, hitem, hf]

/-- C8 witness: the concrete Sessions-level App with the failing Tops
fetch. -/
theorem drilldown_failure_terminates_witness :
    baseApp.edit_param_pop = none ∧
    baseApp.layout = SelectedLayout.Sitzungen ∧
    baseApp.sitzungen.state.selected = some 0 ∧
    baseApp.sitzungen.items[0]? = some sampleSitzung ∧
    c8Env.fetch_tops sampleSitzung.id = none ∧
    App.step baseApp c8Env (KeyInput.Char 'o') = none :=
  ⟨rfl, rfl, rfl, rfl, rfl,
    (drilldown_failure_terminates baseApp c8Env 0 rfl rfl rfl).1
      sampleSitzung rfl rfl rfl rfl⟩

/-! Mode-field lemmas for each operation, used by the C9 invariant. -/

theorem update_modes {a a2 : App} (h : a.update = some a2) :
    a2.currently_editing = a.currently_editing ∧
    a2.currently_creating = a.currently_creating := by
  simp only [App.update] at h
  repeat' split at h
  all_goals simp_all
  all_goals (subst h; simp)

theorem edit_value_modes {a a2 : App} (h : a.edit_value = some a2) :
    a2.currently_editing = a.currently_editing ∧
    a2.currently_creating = a.currently_creating := by
  simp only [App.edit_value] at h
  repeat' split at h
  all_goals simp_all
  all_goals (subst h; simp)

theorem open_top_modes {a a' : App} {env : Env}
    (h : a.open_top env = some a') :
    a'.currently_editing = a.currently_editing ∧
    a'.currently_creating = a.currently_creating := by
  simp only [App.open_top] at h
  repeat' split at h
  all_goals simp_all
  all_goals (subst h; simp)

theorem delete_sitzung_modes {a a' : App} {env : Env}
    (h : a.delete_sitzung env = some a') :
    a'.currently_editing = a.currently_editing ∧
    a'.currently_creating = a.currently_creating := by
  simp only [App.delete_sitzung] at h
  repeat' split at h
  all_goals simp_all
  all_goals (subst h; simp)

theorem delete_top_modes {a a' : App} {env : Env}
    (h : a.delete_top env = some a') :
    a'.currently_editing = a.currently_editing ∧
    a'.currently_creating = a.currently_creating := by
  simp only [App.delete_top] at h
  repeat' split at h
  all_goals simp_all
  all_goals (subst h; simp)

theorem delete_antrag_modes {a a' : App} {env : Env}
    (h : a.delete_antrag env = some a') :
    a'.currently_editing = a.currently_editing ∧
    a'.currently_creating = a.currently_creating := by
  simp only [App.delete_antrag] at h
  repeat' split at h
  all_goals simp_all
  all_goals (subst h; simp)

theorem edit_sitzung_modes {a a' : App} {env : Env}
    (h : a.edit_sitzung env = some a') :
    a'.currently_editing = some SelectedLayout.Sitzungen ∧
    a'.currently_creating = a.currently_creating := by
  simp only [App.edit_sitzung] at h
  repeat' split at h
  all_goals simp_all
  all_goals (subst h; simp)

theorem edit_top_modes {a a' : App} {env : Env}
    (h : a.edit_top env = some a') :
    a'.currently_editing = some SelectedLayout.Tops ∧
    a'.currently_creating = a.currently_creating := by
  simp only [App.edit_top] at h
  repeat' split at h
  all_goals simp_all
  all_goals (subst h; simp)

theorem edit_antag_modes {a a' : App} {env : Env}
    (h : a.edit_antag env = some a') :
    a'.currently_editing = some SelectedLayout.Antraege ∧
    a'.currently_creating = a.currently_creating := by
  simp only [App.edit_antag] at h
  repeat' split at h
  all_goals simp_all
  all_goals (subst h; simp)

/-! Handler-level preservation of mode exclusivity. -/

theorem handle_text_area_excl {a a' : App} {env : Env} {k : KeyInput}
    (hx : a.currently_editing = none ∨ a.currently_creating = none)
    (h : a.handle_text_area env k = some a') :
    a'.currently_editing = none ∨ a'.currently_creating = none := by
  unfold App.handle_text_area at h
  split at h
  · rcases hu : a.update with _ | a2
    · rw [hu] at h; simp at h
    · rw [hu] at h
      simp only [Option.map_some', Option.some.injEq] at h
      have hm := update_modes hu
      subst h
      rcases hx with hx | hx
      · exact Or.inl (hm.1.trans hx)
      · exact Or.inr (hm.2.trans hx)
  · simp only [Option.some.injEq] at h
    subst h
    exact hx

theorem handle_edit_excl {a a' : App} {env : Env} {k : KeyInput}
    (hx : a.currently_editing = none ∨ a.currently_creating = none)
    (h : a.handle_edit env k = some a') :
    a'.currently_editing = none ∨ a'.currently_creating = none := by
  unfold App.handle_edit at h
  split at h
  · exact Or.inl (exit_edit_clears_modes h).1
  · split at h
    · simp only [Option.some.injEq] at h; subst h; exact hx
    · split at h
      · rcases hn : a.edit_buffer.next with _ | l
        · rw [hn] at h; simp at h
        · rw [hn] at h; simp only [Option.map_some', Option.some.injEq] at h
          subst h; exact hx
      · split at h
        · rcases hn : a.edit_buffer.previous with _ | l
          · rw [hn] at h; simp at h
          · rw [hn] at h; simp only [Option.map_some', Option.some.injEq] at h
            subst h; exact hx
        · split at h
          · have hm := edit_value_modes h
            rcases hx with hx | hx
            · exact Or.inl (hm.1.trans hx)
            · exact Or.inr (hm.2.trans hx)
          · simp only [Option.some.injEq] at h; subst h; exact hx

theorem handle_sitzungen_modes {a a' : App} {env : Env} {k : KeyInput}
    (hed : a.currently_editing = none) (hcr : a.currently_creating = none)
    (h : a.handle_sitzungen env k = some a') :
    a'.currently_editing = none ∨ a'.currently_creating = none := by
  unfold App.handle_sitzungen at h
  split at h
  · simp at h
  · split at h
    · simp only [Option.some.injEq] at h; subst h; exact Or.inl hed
    · split at h
      · rcases hn : a.sitzungen.next with _ | l
        · rw [hn] at h; simp at h
        · rw [hn] at h; simp only [Option.map_some', Option.some.injEq] at h
          subst h; exact Or.inl hed
      · split at h
        · rcases hn : a.sitzungen.previous with _ | l
          · rw [hn] at h; simp at h
          · rw [hn] at h; simp only [Option.map_some', Option.some.injEq] at h
            subst h; exact Or.inl hed
        · split at h
          · obtain ⟨-, -, -, h4, -⟩ := open_sitzung_inv h
            exact Or.inl (h4.trans hed)
          · split at h
            · exact Or.inr ((edit_sitzung_modes h).2.trans hcr)
            · split at h
              · simp only [Option.some.injEq] at h; subst h
                exact Or.inl hed
              · split at h
                · exact Or.inl ((delete_sitzung_modes h).1.trans hed)
                · simp only [Option.some.injEq] at h; subst h; exact Or.inl hed

theorem handle_tops_modes {a a' : App} {env : Env} {k : KeyInput}
    (hed : a.currently_editing = none) (hcr : a.currently_creating = none)
    (h : a.handle_tops env k = some a') :
    a'.currently_editing = none ∨ a'.currently_creating = none := by
  unfold App.handle_tops at h
  split at h
  · simp only [Option.some.injEq] at h; subst h; exact Or.inl hed
  · split at h
    · simp only [Option.some.injEq] at h; subst h; exact Or.inl hed
    · split at h
      · rcases hn : a.tops_selected_sitzung.next with _ | l
        · rw [hn] at h; simp at h
        · rw [hn] at h; simp only [Option.map_some', Option.some.injEq] at h
          subst h; exact Or.inl hed
      · split at h
        · rcases hn : a.tops_selected_sitzung.previous with _ | l
          · rw [hn] at h; simp at h
          · rw [hn] at h; simp only [Option.map_some', Option.some.injEq] at h
            subst h; exact Or.inl hed
        · split at h
          · exact Or.inl ((open_top_modes h).1.trans hed)
          · split at h
            · exact Or.inr ((edit_top_modes h).2.trans hcr)
            · split at h
              · simp only [Option.some.injEq] at h; subst h
                exact Or.inl hed
              · split at h
                · exact Or.inl ((delete_top_modes h).1.trans hed)
                · simp only [Option.some.injEq] at h; subst h; exact Or.inl hed

theorem handle_antraege_modes {a a' : App} {env : Env} {k : KeyInput}
    (hed : a.currently_editing = none) (hcr : a.currently_creating = none)
    (h : a.handle_antraege env k = some a') :
    a'.currently_editing = none ∨ a'.currently_creating = none := by
  unfold App.handle_antraege at h
  split at h
  · simp only [Option.some.injEq] at h; subst h; exact Or.inl hed
  · split at h
    · simp only [Option.some.injEq] at h; subst h; exact Or.inl hed
    · split at h
      · rcases hn : a.antraege_selected_top.next with _ | l
        · rw [hn] at h; simp at h
        · rw [hn] at h; simp only [Option.map_some', Option.some.injEq] at h
          subst h; exact Or.inl hed
      · split at h
        · rcases hn : a.antraege_selected_top.previous with _ | l
          · rw [hn] at h; simp at h
          · rw [hn] at h; simp only [Option.map_some', Option.some.injEq] at h
            subst h; exact Or.inl hed
        · split at h
          · exact Or.inr ((edit_antag_modes h).2.trans hcr)
          · split at h
            · simp only [Option.some.injEq] at h; subst h
              exact Or.inl hed
            · split at h
              · exact Or.inl ((delete_antrag_modes h).1.trans hed)
              · simp only [Option.some.injEq] at h; subst h; exact Or.inl hed

theorem step_preserves_excl {a a' : App} {env : Env} {k : KeyInput}
    (hx : a.currently_editing = none ∨ a.currently_creating = none)
    (h : App.step a env k = some a') :
    a'.currently_editing = none ∨ a'.currently_creating = none := by
  unfold App.step at h
  by_cases hpop : a.edit_param_pop.isSome
  · rw [if_pos hpop] at h
    exact handle_text_area_excl hx h
  · rw [if_neg hpop] at h
    by_cases hce : a.currently_editing.isSome
    · rw [if_pos hce] at h
      exact handle_edit_excl hx h
    · rw [if_neg hce] at h
      by_cases hcc : a.currently_creating.isSome
      · rw [if_pos hcc] at h
        exact handle_edit_excl hx h
      · rw [if_neg hcc] at h
        have hed : a.currently_editing = none :=
          Option.not_isSome_iff_eq_none.mp hce
        have hcr : a.currently_creating = none :=
          Option.not_isSome_iff_eq_none.mp hcc
        split at h
        · exact handle_sitzungen_modes hed hcr h
        · exact handle_tops_modes hed hcr h
        · exact handle_antraege_modes hed hcr h

/-- C9: in every state reachable from the initial state by key-event
steps, at most one of currently_editing and currently_creating is set:
Editing and Creating are mutually exclusive. -/
theorem editing_creating_exclusive (a : App) (h : Reachable a) :
    a.currently_editing = none ∨ a.currently_creating = none := by
  induction h with
  | init s tok => exact Or.inl rfl
  | step b env k b2 hr hstep ih => exact step_preserves_excl ih hstep

/-- C9 witness at the initial state. -/
theorem editing_creating_exclusive_witness :
    (App.new [] "tok").currently_editing = none ∨
    (App.new [] "tok").currently_creating = none :=
  editing_creating_exclusive (App.new [] "tok") (Reachable.init [] "tok")

end Sitzungsverwaltung
